import Mathlib

/-!
Shallow embedding of the text-file-processing framework.

The model mirrors the two source files of the repository:
the framework module with the classes FileProcessor and FolderProcessor,
and the example module with the class CalculateAveragesFromCSV and the
grep example.  Machine-level details are modelled as follows: the slice
of the filesystem the program touches is a record holding the input
folder contents, the optional output folder contents and the optional
summary file contents; errors raised by the Python runtime are values of
a small error type carrying the message and the class name of the
exception; floats in the CSV example are modelled by rationals.
-/

/-- A raised Python exception, reduced to the data the driver consumes:
the message rendered by str and the class rendered next to it. -/
structure PyError where
  msg : String
  kind : String
deriving DecidableEq, Repr

/-- The slice of the filesystem the program touches: the entries of the
input folder (name and lines, as readlines would return them), the
entries of the output folder when that folder exists, and the contents
of the summary file when that file exists. -/
structure FS where
  indir : List (String × List String)
  outdir : Option (List (String × List String))
  summary : Option (List String)
deriving DecidableEq, Repr

/-- Names of the entries of a folder, in listing order. -/
def dirNames (l : List (String × List String)) : List String :=
  l.map Prod.fst

/-- Reading a file of a folder by name: the first entry with that name. -/
def lookupFile (n : String) : List (String × List String) → Option (List String)
  | [] => none
  | (k, v) :: rest => if k = n then some v else lookupFile n rest

/-- Creating or truncating a file of a folder: replace the entry with
that name when present, append a fresh entry otherwise. -/
def setEntry : List (String × List String) → String → List String → List (String × List String)
  | [], k, v => [(k, v)]
  | (k2, v2) :: rest, k, v =>
      if k2 = k then (k, v) :: rest else (k2, v2) :: setEntry rest k v

/-- The error raised by open when a path cannot be resolved. -/
def fileMissingErr (path : String) : PyError :=
  { msg := "No such file or directory: " ++ path, kind := "FileNotFoundError" }

/-- One data-processing object, with the fields set by the constructor of
the class FileProcessor: the input path, the output folder, the input
filename, the optional summary file and the extra arguments; the field
statusverbose starts as None and may be set by process_data. -/
structure FileProcessor where
  inpath : String
  outfolder : String
  filename : String
  outfile : Option String
  additional_args : List (String × String)
  statusverbose : Option String
deriving DecidableEq, Repr

namespace FileProcessor

/-- Method get_input_data: open the input file and return its lines; a
missing file raises, and the error propagates to the caller. -/
def get_input_data (fp : FileProcessor) (fs : FS) : Except PyError (List String) :=
  match lookupFile fp.filename fs.indir with
  | some lines => Except.ok lines
  | none => Except.error (fileMissingErr fp.inpath)

/-- Method write_data_to_file: with a summary file configured, open it in
append mode and add the dataset; otherwise open the per-file output path
in write mode, which truncates or creates the file and fails when the
output folder does not exist.  The overridable method
generate_output_filename is passed in as the function gof. -/
def write_data_to_file (gof : FileProcessor → String) (fp : FileProcessor)
    (dataset : List String) (fs : FS) : Except PyError FS :=
  match fp.outfile with
  | some _ =>
      Except.ok { fs with summary := some (fs.summary.getD [] ++ dataset) }
  | none =>
      match fs.outdir with
      | none => Except.error (fileMissingErr (fp.outfolder ++ "/" ++ gof fp))
      | some entries =>
          Except.ok { fs with outdir := some (setEntry entries (gof fp) dataset) }

end FileProcessor

/-- One entry of the heterogeneous list returned by grep_string when
printing is disabled: the filename followed by line indices. -/
inductive GrepEntry where
  | str : String → GrepEntry
  | num : Nat → GrepEntry
deriving DecidableEq, Repr

/-- Substring containment over character lists, the model of the Python
membership test on strings: some suffix of the haystack starts with the
needle. -/
def listContainsSub (needle hay : List Char) : Bool :=
  hay.tails.any (fun t => needle.isPrefixOf t)

/-- Substring containment on strings. -/
def strContainsSub (needle hay : String) : Bool :=
  listContainsSub needle.data hay.data

/-- The match-collecting loop of grep_string: the 0-based indices of the
lines of the dataset containing the needle, in increasing order. -/
def grepMatches (needle : String) (dataset : List String) : List Nat :=
  (dataset.enum.filter (fun p => strContainsSub needle p.2)).map Prod.fst

/-- Python strip with no argument removes leading and trailing
whitespace characters. -/
def pyStrip (s : String) : String :=
  String.mk (((s.data.dropWhile Char.isWhitespace).reverse.dropWhile Char.isWhitespace).reverse)

/-- Python strip with a newline argument removes leading and trailing
newline characters, as used in the diagnostic line of grep_string. -/
def stripNewlines (s : String) : String :=
  String.mk (((s.data.dropWhile (· = '\n')).reverse.dropWhile (· = '\n')).reverse)

/-- Method grep_string: collect the indices of the matching lines; when
printdata is true, print one diagnostic line per match and return None;
otherwise return the filename followed by the match indices.  The result
pairs the optional return value with the printed lines. -/
def FileProcessor.grep_string (fp : FileProcessor) (string : String)
    (dataset : List String) (printdata : Bool) :
    Option (List GrepEntry) × List String :=
  let ms := grepMatches string dataset
  if printdata then
    (none, ms.map (fun m =>
      "String " ++ string ++ " found on line " ++ toString (m + 1) ++
      " in file " ++ fp.filename ++ ": (" ++ stripNewlines (dataset.getD m "") ++ ")"))
  else
    (some (GrepEntry.str fp.filename :: ms.map GrepEntry.num), [])

/-- The behaviour supplied by a subclass of FileProcessor: the overridable
methods process_data and generate_output_filename.  process_data maps the
object and the filesystem to the filesystem after its side effects,
together with either the resulting statusverbose value or the raised
error; the filesystem component records the effects performed before a
raise. -/
structure UnitClass where
  generate_output_filename : FileProcessor → String
  process_data : FileProcessor → FS → FS × Except PyError (Option String)

/-- The base class itself as a ProcessObject: generate_output_filename
returns the filename unchanged and process_data only prints. -/
def baseClass : UnitClass :=
  { generate_output_filename := fun fp => fp.filename
    process_data := fun _ fs => (fs, Except.ok none) }

/-- The configuration of a FolderProcessor: the constructor arguments. -/
structure Config where
  infolder : String
  outfolder : String
  ProcessObject : UnitClass
  verbose : Bool
  outfile : Option String
  overwrite : Bool
  additional_args : List (String × String)

/-- The FileProcessor built by generate_objects for one input filename:
the constructor call with the folders, the filename, the summary file
and the extra arguments of the driver. -/
def mkObject (cfg : Config) (n : String) : FileProcessor :=
  { inpath := cfg.infolder ++ "/" ++ n
    outfolder := cfg.outfolder
    filename := n
    outfile := cfg.outfile
    additional_args := cfg.additional_args
    statusverbose := none }

/-- The two header lines written to the summary file by the constructor
of FolderProcessor, as the single write of the header string. -/
def summaryHeader : List String :=
  ["Summary of results:\n", "\n"]

/-- The summary-file initialisation of the constructor: with a summary
file configured, open it in write mode, write the header and close it,
discarding any prior contents; otherwise do nothing. -/
def initFS (cfg : Config) (fs : FS) : FS :=
  match cfg.outfile with
  | some _ => { fs with summary := some summaryHeader }
  | none => fs

/-- The preserve list of generate_objects: the files not to overwrite.
It is the listing of the output folder when overwrite is off, no summary
file is configured and the output folder is listable, and empty
otherwise. -/
def preservelist (cfg : Config) (fs : FS) : List String :=
  if !cfg.overwrite && cfg.outfile.isNone && fs.outdir.isSome then
    dirNames (fs.outdir.getD [])
  else
    []

/-- The notice printed when the output for an input file already exists. -/
def noticeStr (n : String) : String :=
  "Output already exists for " ++ n ++ " ... ignoring this file"

/-- The loop of generate_objects over the sorted input filenames:
construct the object, compute its output filename, and either skip the
file with a notice when that name is in the preserve list or keep the
object.  Returns the kept objects and the printed notices, each in input
order. -/
def generateLoop (cfg : Config) (pl : List String) : List String → List FileProcessor × List String
  | [] => ([], [])
  | n :: rest =>
      let fp := mkObject cfg n
      let outputfile := cfg.ProcessObject.generate_output_filename fp
      let (objs, notices) := generateLoop cfg pl rest
      if outputfile ∈ pl then
        (objs, noticeStr n :: notices)
      else
        (fp :: objs, notices)

/-- Method generate_objects: build the preserve list, then filter the
sorted input filenames through the skip check. -/
def generate_objects (cfg : Config) (fs : FS) (fileslist : List String) :
    List FileProcessor × List String :=
  generateLoop cfg (preservelist cfg fs) fileslist

/-- The success comment of process_folder: the statusverbose value of the
object when that value is truthy, and the OK marker otherwise. -/
def commentOfStatus (sv : Option String) : String :=
  match sv with
  | some s => if s = "" then "\t... OK" else s
  | none => "\t... OK"

/-- The failure comment built by the except branch of process_folder. -/
def failedComment (e : PyError) : String :=
  "\t... FAILED: " ++ e.msg ++ " [" ++ e.kind ++ "]"

/-- The comment attached to one object from the outcome of its
process_data call. -/
def commentOf (res : Except PyError (Option String)) : String :=
  match res with
  | Except.ok sv => commentOfStatus sv
  | Except.error e => failedComment e

/-- The loop of process_folder: run process_data of each object in list
order inside the per-unit failure boundary, threading the filesystem,
and record for each object its filename with its comment. -/
def runUnits (cls : UnitClass) : List FileProcessor → FS → FS × List (String × String)
  | [], fs => (fs, [])
  | fp :: rest, fs =>
      let step := cls.process_data fp fs
      let comment := commentOf step.2
      let tail := runUnits cls rest step.1
      (tail.1, (fp.filename, comment) :: tail.2)

/-- The line printed for one object in verbose mode. -/
def processLine (p : String × String) : String :=
  "Processing file ... " ++ p.1 ++ " " ++ p.2

/-- Lexicographic comparison of character lists by code point, the order
used by the Python sort on a list of strings. -/
def lexLeB : List Char → List Char → Bool
  | [], _ => true
  | _ :: _, [] => false
  | a :: as, b :: bs =>
      if a.toNat < b.toNat then true
      else if a.toNat = b.toNat then lexLeB as bs
      else false

/-- Lexicographic code-point order on strings. -/
def strLe (a b : String) : Prop :=
  lexLeB a.data b.data = true

instance : DecidableRel strLe :=
  fun a b => inferInstanceAs (Decidable (lexLeB a.data b.data = true))

theorem lexLeB_total (a b : List Char) : lexLeB a b = true ∨ lexLeB b a = true := by
  induction a generalizing b with
  | nil => left; rfl
  | cons x xs ih =>
      cases b with
      | nil => right; rfl
      | cons y ys =>
          rcases Nat.lt_trichotomy x.toNat y.toNat with h | h | h
          · left; simp [lexLeB, h]
          · rcases ih ys with h2 | h2
            · left; simp [lexLeB, h, h2]
            · right; simp [lexLeB, h.symm, h2]
          · right; simp [lexLeB, h]

theorem lexLeB_trans {a b c : List Char} (hab : lexLeB a b = true)
    (hbc : lexLeB b c = true) : lexLeB a c = true := by
  induction a generalizing b c with
  | nil => rfl
  | cons x xs ih =>
      cases b with
      | nil => simp [lexLeB] at hab
      | cons y ys =>
          cases c with
          | nil => simp [lexLeB] at hbc
          | cons z zs =>
              simp only [lexLeB] at hab hbc ⊢
              rcases Nat.lt_trichotomy x.toNat y.toNat with h1 | h1 | h1
              · rcases Nat.lt_trichotomy y.toNat z.toNat with h2 | h2 | h2
                · simp [Nat.lt_trans h1 h2]
                · simp [h2 ▸ h1]
                · rw [if_neg (by omega), if_neg (by omega)] at hbc
                  simp at hbc
              · rw [if_neg (by omega), if_pos h1] at hab
                rcases Nat.lt_trichotomy y.toNat z.toNat with h2 | h2 | h2
                · simp [h1 ▸ h2]
                · rw [if_neg (by omega), if_pos h2] at hbc
                  rw [if_neg (by omega), if_pos (h1.trans h2)]
                  exact ih hab hbc
                · rw [if_neg (by omega), if_neg (by omega)] at hbc
                  simp at hbc
              · rw [if_neg (by omega), if_neg (by omega)] at hab
                simp at hab

theorem lexLeB_antisymm {a b : List Char} (hab : lexLeB a b = true)
    (hba : lexLeB b a = true) : a = b := by
  induction a generalizing b with
  | nil =>
      cases b with
      | nil => rfl
      | cons y ys => simp [lexLeB] at hba
  | cons x xs ih =>
      cases b with
      | nil => simp [lexLeB] at hab
      | cons y ys =>
          simp only [lexLeB] at hab hba
          rcases Nat.lt_trichotomy x.toNat y.toNat with h1 | h1 | h1
          · rw [if_neg (by omega), if_neg (by omega)] at hba
            simp at hba
          · have hx : x = y := Char.ext (UInt32.ext h1)
            rw [if_neg (by omega), if_pos h1] at hab
            rw [if_neg (by omega), if_pos h1.symm] at hba
            rw [hx, ih hab hba]
          · rw [if_neg (by omega), if_neg (by omega)] at hab
            simp at hab

instance : IsTotal String strLe :=
  ⟨fun a b => lexLeB_total a.data b.data⟩

instance : IsTrans String strLe :=
  ⟨fun _ _ _ => lexLeB_trans⟩

instance : IsAntisymm String strLe :=
  ⟨fun a b hab hba => by
    cases a with
    | mk da =>
        cases b with
        | mk db => exact congrArg String.mk (lexLeB_antisymm hab hba)⟩

/-- Everything observable about one driver construction: the final
filesystem, the sorted input listing, the skip notices, the generated
objects, the per-object results as filename-comment pairs, and the lines
printed by process_folder. -/
structure RunResult where
  fs : FS
  fileslist : List String
  notices : List String
  objectlist : List FileProcessor
  results : List (String × String)
  printed : List String
deriving DecidableEq, Repr

/-- The constructor of FolderProcessor, which performs the whole run:
initialise the summary file, list and sort the input folder, generate
the objects, and process them in order. -/
def FolderProcessor.run (cfg : Config) (fs0 : FS) : RunResult :=
  let fs1 := initFS cfg fs0
  let fileslist := List.insertionSort strLe (dirNames fs1.indir)
  let gen := generate_objects cfg fs1 fileslist
  let exec := runUnits cfg.ProcessObject gen.1 fs1
  { fs := exec.1
    fileslist := fileslist
    notices := gen.2
    objectlist := gen.1
    results := exec.2
    printed := if cfg.verbose then exec.2.map processLine ++ [" "] else [] }

/-- The process_data method of a subclass following the extension
contract of the module: read the input lines, transform them with a pure
step that may raise, and write the result through write_data_to_file. -/
def standardPD (g : String → String)
    (t : List String → Except PyError (List String))
    (fp : FileProcessor) (fs : FS) : FS × Except PyError (Option String) :=
  match fp.get_input_data fs with
  | Except.error e => (fs, Except.error e)
  | Except.ok data =>
      match t data with
      | Except.error e => (fs, Except.error e)
      | Except.ok out =>
          match fp.write_data_to_file (fun fp2 => g fp2.filename) out fs with
          | Except.error e => (fs, Except.error e)
          | Except.ok fs2 => (fs2, Except.ok none)

/-- A subclass following the extension contract of the module:
generate_output_filename is a function of the input filename and
process_data is the read-transform-write step. -/
def standardClass (g : String → String)
    (t : List String → Except PyError (List String)) : UnitClass :=
  { generate_output_filename := fun fp => g fp.filename
    process_data := standardPD g t }

/-!
General lemmas about the driver loops.
-/

theorem runUnits_nil (cls : UnitClass) (fs : FS) : runUnits cls [] fs = (fs, []) := rfl

theorem runUnits_cons (cls : UnitClass) (fp : FileProcessor) (rest : List FileProcessor)
    (fs : FS) :
    runUnits cls (fp :: rest) fs =
      ((runUnits cls rest (cls.process_data fp fs).1).1,
        (fp.filename, commentOf (cls.process_data fp fs).2) ::
          (runUnits cls rest (cls.process_data fp fs).1).2) := rfl

theorem runUnits_append (cls : UnitClass) (l1 l2 : List FileProcessor) (fs : FS) :
    runUnits cls (l1 ++ l2) fs =
      ((runUnits cls l2 (runUnits cls l1 fs).1).1,
        (runUnits cls l1 fs).2 ++ (runUnits cls l2 (runUnits cls l1 fs).1).2) := by
  induction l1 generalizing fs with
  | nil => simp [runUnits]
  | cons fp rest ih =>
      simp [runUnits_cons, List.cons_append, ih]

theorem runUnits_length (cls : UnitClass) (objects : List FileProcessor) (fs : FS) :
    (runUnits cls objects fs).2.length = objects.length := by
  induction objects generalizing fs with
  | nil => rfl
  | cons fp rest ih => simp [runUnits_cons, ih]

theorem generateLoop_eq (cfg : Config) (pl : List String) (names : List String) :
    generateLoop cfg pl names =
      ((names.filter (fun n =>
          decide (cfg.ProcessObject.generate_output_filename (mkObject cfg n) ∉ pl))).map
            (mkObject cfg),
        (names.filter (fun n =>
          decide (cfg.ProcessObject.generate_output_filename (mkObject cfg n) ∈ pl))).map
            noticeStr) := by
  induction names with
  | nil => rfl
  | cons n rest ih =>
      simp only [generateLoop, ih, List.filter_cons]
      by_cases h : cfg.ProcessObject.generate_output_filename (mkObject cfg n) ∈ pl
      · simp [h]
      · simp [h]

theorem mkObject_injective (cfg : Config) {n m : String}
    (h : mkObject cfg n = mkObject cfg m) : n = m :=
  congrArg FileProcessor.filename h

/-!
Claim theorems about the per-unit failure boundary and the skip logic.
-/

/-- C1: for every batch and every unit whose process_data raises, the
driver catches the error at the per-unit boundary, records the comment
built from the message and the kind of the error, does not propagate the
error, and still runs all subsequent units, so the run always completes
with one result per unit. -/
theorem process_folder_isolates_failures (cls : UnitClass)
    (objects : List FileProcessor) (fs : FS) :
    (runUnits cls objects fs).2.length = objects.length ∧
    (∀ l1 u l2 e fs2, objects = l1 ++ u :: l2 →
      cls.process_data u (runUnits cls l1 fs).1 = (fs2, Except.error e) →
      (runUnits cls objects fs).2 =
        (runUnits cls l1 fs).2 ++
          (u.filename, "\t... FAILED: " ++ e.msg ++ " [" ++ e.kind ++ "]") ::
            (runUnits cls l2 fs2).2 ∧
      (runUnits cls objects fs).1 = (runUnits cls l2 fs2).1) := by
  refine ⟨runUnits_length cls objects fs, ?_⟩
  intro l1 u l2 e fs2 hobj hpd
  subst hobj
  rw [runUnits_append, runUnits_cons, hpd]
  exact ⟨rfl, rfl⟩

def c1Cls : UnitClass :=
  { generate_output_filename := fun fp => fp.filename
    process_data := fun _ fs => (fs, Except.error { msg := "boom", kind := "ValueError" }) }

def c1FS : FS := { indir := [("a", ["x"])], outdir := none, summary := none }

def c1FP1 : FileProcessor :=
  { inpath := "input/a", outfolder := "output", filename := "a", outfile := none,
    additional_args := [], statusverbose := none }

def c1FP2 : FileProcessor :=
  { inpath := "input/b", outfolder := "output", filename := "b", outfile := none,
    additional_args := [], statusverbose := none }

theorem process_folder_isolates_failures_witness :
    (runUnits c1Cls [c1FP1, c1FP2] c1FS).2.length = 2 ∧
    (runUnits c1Cls [c1FP1, c1FP2] c1FS).2 =
      (runUnits c1Cls [] c1FS).2 ++
        (c1FP1.filename, "\t... FAILED: " ++ "boom" ++ " [" ++ "ValueError" ++ "]") ::
          (runUnits c1Cls [c1FP2] c1FS).2 ∧
    (runUnits c1Cls [c1FP1, c1FP2] c1FS).1 = (runUnits c1Cls [c1FP2] c1FS).1 := by
  have h := process_folder_isolates_failures c1Cls [c1FP1, c1FP2] c1FS
  have h2 := h.2 [] c1FP1 [c1FP2] { msg := "boom", kind := "ValueError" } c1FS rfl rfl
  exact ⟨h.1, h2.1, h2.2⟩

/-- C2: the preserve list is empty whenever a summary file is configured,
or overwrite is on, or listing the output folder fails; otherwise it is
the full listing of the output folder; and with a summary file configured
the skip logic is bypassed entirely, so every input file yields an object
and no notice is printed. -/
theorem preservelist_cases (cfg : Config) (fs : FS) :
    (cfg.outfile.isSome = true → preservelist cfg fs = []) ∧
    (cfg.overwrite = true → preservelist cfg fs = []) ∧
    (fs.outdir = none → preservelist cfg fs = []) ∧
    (∀ entries, cfg.outfile = none → cfg.overwrite = false → fs.outdir = some entries →
      preservelist cfg fs = dirNames entries) ∧
    (∀ fileslist, cfg.outfile.isSome = true →
      generate_objects cfg fs fileslist = (fileslist.map (mkObject cfg), [])) := by
  have hsome : cfg.outfile.isSome = true → preservelist cfg fs = [] := by
    intro h
    rcases Option.isSome_iff_exists.mp h with ⟨p, hp⟩
    simp [preservelist, hp]
  refine ⟨hsome, ?_, ?_, ?_, ?_⟩
  · intro h
    simp [preservelist, h]
  · intro h
    simp [preservelist, h]
  · intro entries h1 h2 h3
    simp [preservelist, h1, h2, h3, dirNames]
  · intro fileslist h
    rw [generate_objects, hsome h, generateLoop_eq]
    simp

def c2CfgA : Config :=
  { infolder := "input", outfolder := "output", ProcessObject := baseClass, verbose := true,
    outfile := some "summary.txt", overwrite := false, additional_args := [] }

def c2CfgB : Config :=
  { infolder := "input", outfolder := "output", ProcessObject := baseClass, verbose := true,
    outfile := none, overwrite := false, additional_args := [] }

def c2FS : FS :=
  { indir := [("a.txt", ["x\n"])], outdir := some [("keep.txt", ["k"])], summary := none }

theorem preservelist_cases_witness :
    preservelist c2CfgA c2FS = [] ∧
    preservelist c2CfgB c2FS = dirNames [("keep.txt", ["k"])] ∧
    generate_objects c2CfgA c2FS ["a.txt"] = (["a.txt"].map (mkObject c2CfgA), []) := by
  have hA := preservelist_cases c2CfgA c2FS
  have hB := preservelist_cases c2CfgB c2FS
  exact ⟨hA.1 rfl, hB.2.2.2.1 [("keep.txt", ["k"])] rfl rfl rfl,
    hA.2.2.2.2 ["a.txt"] rfl⟩

/-- C3: generate_objects tests the computed output filename of each
constructed object, not the input filename, against the preserve list:
the kept objects are those whose computed output filename is absent from
the list, and each skipped input file yields exactly the notice naming
that input file. -/
theorem generate_objects_uses_output_filename (cfg : Config) (fs : FS)
    (fileslist : List String) :
    generate_objects cfg fs fileslist =
      ((fileslist.filter (fun n =>
          decide (cfg.ProcessObject.generate_output_filename (mkObject cfg n) ∉
            preservelist cfg fs))).map (mkObject cfg),
        (fileslist.filter (fun n =>
          decide (cfg.ProcessObject.generate_output_filename (mkObject cfg n) ∈
            preservelist cfg fs))).map noticeStr) ∧
    (∀ n, n ∈ fileslist →
      cfg.ProcessObject.generate_output_filename (mkObject cfg n) ∈ preservelist cfg fs →
      noticeStr n ∈ (generate_objects cfg fs fileslist).2 ∧
        mkObject cfg n ∉ (generate_objects cfg fs fileslist).1) ∧
    (∀ n, n ∈ fileslist →
      cfg.ProcessObject.generate_output_filename (mkObject cfg n) ∉ preservelist cfg fs →
      mkObject cfg n ∈ (generate_objects cfg fs fileslist).1) := by
  have hchar := generateLoop_eq cfg (preservelist cfg fs) fileslist
  refine ⟨hchar, ?_, ?_⟩
  · intro n hn hin
    rw [generate_objects, hchar]
    constructor
    · exact List.mem_map_of_mem noticeStr (List.mem_filter.mpr ⟨hn, by simp [hin]⟩)
    · intro hmem
      rcases List.mem_map.mp hmem with ⟨m, hm, heq⟩
      have : m = n := mkObject_injective cfg heq
      subst this
      have := (List.mem_filter.mp hm).2
      simp [hin] at this
  · intro n hn hout
    rw [generate_objects, hchar]
    exact List.mem_map_of_mem (mkObject cfg) (List.mem_filter.mpr ⟨hn, by simp [hout]⟩)

/-!
Substring search: characterisation of grep_string.
-/

theorem strContainsSub_iff (needle hay : String) :
    strContainsSub needle hay = true ↔ needle.data <:+: hay.data := by
  rw [strContainsSub, listContainsSub, List.any_eq_true]
  constructor
  · rintro ⟨t, ht, hpre⟩
    rw [List.mem_tails] at ht
    rw [List.isPrefixOf_iff_prefix] at hpre
    exact List.infix_iff_prefix_suffix.mpr ⟨t, hpre, ht⟩
  · intro h
    rcases List.infix_iff_prefix_suffix.mp h with ⟨t, hpre, hsuf⟩
    exact ⟨t, (List.mem_tails _ _).mpr hsuf, List.isPrefixOf_iff_prefix.mpr hpre⟩

theorem grepMatches_mem (needle : String) (dataset : List String) (i : Nat) :
    i ∈ grepMatches needle dataset ↔
      i < dataset.length ∧ needle.data <:+: (dataset.getD i "").data := by
  rw [grepMatches]
  constructor
  · intro h
    rcases List.mem_map.mp h with ⟨⟨j, x⟩, hmem, hj⟩
    rcases List.mem_filter.mp hmem with ⟨henum, hp⟩
    have hget : dataset[j]? = some x := List.mem_enum_iff_getElem?.mp henum
    have hlt : j < dataset.length := by
      by_contra hge
      rw [List.getElem?_eq_none (by omega)] at hget
      exact Option.noConfusion hget
    have hx : x = dataset[j] := by
      rw [List.getElem?_eq_getElem hlt] at hget
      exact (Option.some.injEq _ _).mp hget.symm
    have hij : j = i := hj
    subst hij
    refine ⟨hlt, ?_⟩
    have hgd : dataset.getD j "" = dataset[j] := List.getD_eq_getElem dataset "" hlt
    rw [hgd, ← hx]
    exact (strContainsSub_iff needle x).mp hp
  · rintro ⟨hi, hinf⟩
    apply List.mem_map.mpr
    refine ⟨(i, dataset[i]), List.mem_filter.mpr ⟨?_, ?_⟩, rfl⟩
    · exact List.mem_enum_iff_getElem?.mpr (by simp [List.getElem?_eq_getElem hi])
    · rw [strContainsSub_iff]
      have hgd : dataset.getD i "" = dataset[i] := List.getD_eq_getElem dataset "" hi
      rwa [hgd] at hinf

theorem grepMatches_sorted (needle : String) (dataset : List String) :
    List.Sorted (· < ·) (grepMatches needle dataset) := by
  have hsub : (grepMatches needle dataset).Sublist (dataset.enum.map Prod.fst) :=
    List.Sublist.map Prod.fst (List.filter_sublist _)
  rw [List.enum_map_fst] at hsub
  exact List.Pairwise.sublist hsub (List.pairwise_lt_range _)

/-- C8: with printing disabled, grep_string returns the filename followed
by the 0-based indices, in increasing order, of exactly the lines of the
dataset containing the needle as a substring; in particular searching for
the tag string over the two scenario lines returns the filename and the
index 1. -/
theorem grep_string_no_emit (fp : FileProcessor) (needle : String) (dataset : List String) :
    (fp.grep_string needle dataset false).1 =
      some (GrepEntry.str fp.filename :: (grepMatches needle dataset).map GrepEntry.num) ∧
    (∀ i, i ∈ grepMatches needle dataset ↔
      i < dataset.length ∧ needle.data <:+: (dataset.getD i "").data) ∧
    List.Sorted (· < ·) (grepMatches needle dataset) ∧
    (fp.grep_string "#2" ["no match\n", "tag #2 here\n"] false).1 =
      some [GrepEntry.str fp.filename, GrepEntry.num 1] := by
  refine ⟨rfl, fun i => grepMatches_mem needle dataset i,
    grepMatches_sorted needle dataset, ?_⟩
  have hm : grepMatches "#2" ["no match\n", "tag #2 here\n"] = [1] := by decide
  simp [FileProcessor.grep_string, hm]

/-!
The file-handle level of write_data_to_file.
-/

/-- A file-handle event of write_data_to_file: opening the target (the
path and whether the mode is append), writing one element of the
dataset, or closing the handle. -/
inductive FileEvent where
  | fopen : String → Bool → FileEvent
  | fwrite : String → FileEvent
  | fclose : FileEvent
deriving DecidableEq, Repr

/-- The write loop of write_data_to_file at the handle level, with a
fault point: failAt gives the index of the write call that raises, when
that index is reached.  Returns the write events performed and whether
the loop finished without raising. -/
def writeLoopEvents : List String → Option Nat → List FileEvent × Bool
  | [], _ => ([], true)
  | line :: rest, failAt =>
      match failAt with
      | some 0 => ([], false)
      | some (k + 1) =>
          let tail := writeLoopEvents rest (some k)
          (FileEvent.fwrite line :: tail.1, tail.2)
      | none =>
          let tail := writeLoopEvents rest none
          (FileEvent.fwrite line :: tail.1, tail.2)

/-- Method write_data_to_file at the file-handle level: choose the target
path and mode from the outfile field, open the handle, run the write
loop with the given fault point, and close the handle only when the loop
finished without raising, since the close call at the end of the method
body is not protected against an error raised by a write. -/
def write_data_to_file_events (gof : FileProcessor → String) (fp : FileProcessor)
    (dataset : List String) (failAt : Option Nat) : List FileEvent :=
  let target : String × Bool :=
    match fp.outfile with
    | some p => (p, true)
    | none => (fp.outfolder ++ "/" ++ gof fp, false)
  let loop := writeLoopEvents dataset failAt
  FileEvent.fopen target.1 target.2 :: (loop.1 ++ (if loop.2 then [FileEvent.fclose] else []))

theorem writeLoopEvents_none (dataset : List String) :
    writeLoopEvents dataset none = (dataset.map FileEvent.fwrite, true) := by
  induction dataset with
  | nil => rfl
  | cons line rest ih => simp [writeLoopEvents, ih]

theorem writeLoopEvents_late (dataset : List String) (k : Nat)
    (h : dataset.length ≤ k) :
    writeLoopEvents dataset (some k) = (dataset.map FileEvent.fwrite, true) := by
  induction dataset generalizing k with
  | nil => rfl
  | cons line rest ih =>
      cases k with
      | zero => simp at h
      | succ k2 =>
          have : rest.length ≤ k2 := by simpa using h
          simp [writeLoopEvents, ih k2 this]

theorem writeLoopEvents_fail (dataset : List String) (k : Nat)
    (h : k < dataset.length) :
    writeLoopEvents dataset (some k) =
      ((dataset.take k).map FileEvent.fwrite, false) := by
  induction dataset generalizing k with
  | nil => simp at h
  | cons line rest ih =>
      cases k with
      | zero => simp [writeLoopEvents]
      | succ k2 =>
          have : k2 < rest.length := by simpa using h
          simp [writeLoopEvents, ih k2 this]

def c6FP : FileProcessor :=
  { inpath := "input/a.txt", outfolder := "output", filename := "a.txt", outfile := none,
    additional_args := [], statusverbose := none }

/-- C6 counterexample: when the first write raises, the handle is never
closed, because the close call of write_data_to_file is not inside any
scoped or protected region. -/
theorem write_close_missing_on_raise :
    FileEvent.fclose ∉
      write_data_to_file_events (fun fp => fp.filename) c6FP ["x"] (some 0) := by
  decide

/-- C6 amended: in both summary-append mode and per-file truncate mode
the handle is closed whenever no write raises, the close being the last
event; when a write raises partway through, the close is skipped and the
error propagates, so the handle is not closed by this method. -/
theorem write_close_on_normal_exit (gof : FileProcessor → String)
    (fp : FileProcessor) (dataset : List String) :
    (write_data_to_file_events gof fp dataset none).getLast? = some FileEvent.fclose ∧
    (∀ k, dataset.length ≤ k →
      (write_data_to_file_events gof fp dataset (some k)).getLast? =
        some FileEvent.fclose) ∧
    (∀ k, k < dataset.length →
      FileEvent.fclose ∉ write_data_to_file_events gof fp dataset (some k)) := by
  refine ⟨?_, ?_, ?_⟩
  · rw [write_data_to_file_events, writeLoopEvents_none]
    simp only [if_pos, ← List.cons_append]
    exact List.getLast?_concat _
  · intro k hk
    rw [write_data_to_file_events, writeLoopEvents_late dataset k hk]
    simp only [if_pos, ← List.cons_append]
    exact List.getLast?_concat _
  · intro k hk
    rw [write_data_to_file_events, writeLoopEvents_fail dataset k hk]
    intro hmem
    simp only [Bool.false_eq_true, if_false, List.append_nil, List.mem_cons] at hmem
    rcases hmem with h | h
    · exact FileEvent.noConfusion h
    · rcases List.mem_map.mp h with ⟨x, _, hx⟩
      exact FileEvent.noConfusion hx

theorem write_close_on_normal_exit_witness :
    (write_data_to_file_events (fun fp => fp.filename) c6FP ["x"] none).getLast? =
      some FileEvent.fclose ∧
    (write_data_to_file_events (fun fp => fp.filename) c6FP ["x"] (some 2)).getLast? =
      some FileEvent.fclose := by
  have h := write_close_on_normal_exit (fun fp => fp.filename) c6FP ["x"]
  exact ⟨h.1, h.2.1 2 (by decide)⟩

theorem generate_objects_uses_output_filename_witness :
    noticeStr "keep.txt" ∈ (generate_objects c2CfgB c2FS ["keep.txt", "new.txt"]).2 ∧
    mkObject c2CfgB "keep.txt" ∉ (generate_objects c2CfgB c2FS ["keep.txt", "new.txt"]).1 ∧
    mkObject c2CfgB "new.txt" ∈ (generate_objects c2CfgB c2FS ["keep.txt", "new.txt"]).1 := by
  have h := generate_objects_uses_output_filename c2CfgB c2FS ["keep.txt", "new.txt"]
  have h1 := h.2.1 "keep.txt" (by decide) (by decide)
  have h2 := h.2.2 "new.txt" (by decide) (by decide)
  exact ⟨h1.1, h1.2, h2⟩

/-!
Standard units: the effect of one process_data call.
-/

theorem standard_step (g : String → String)
    (t : List String → Except PyError (List String))
    (fp : FileProcessor) (fs : FS) :
    ((∃ e, standardPD g t fp fs = (fs, Except.error e))) ∨
    (∃ data out, lookupFile fp.filename fs.indir = some data ∧ t data = Except.ok out ∧
      ((∃ p, fp.outfile = some p ∧
          standardPD g t fp fs =
            ({ fs with summary := some (fs.summary.getD [] ++ out) }, Except.ok none)) ∨
        (fp.outfile = none ∧ ∃ entries, fs.outdir = some entries ∧
          standardPD g t fp fs =
            ({ fs with outdir := some (setEntry entries (g fp.filename) out) },
              Except.ok none)))) := by
  rcases hl : lookupFile fp.filename fs.indir with _ | data
  · left
    exact ⟨fileMissingErr fp.inpath, by simp [standardPD, FileProcessor.get_input_data, hl]⟩
  · rcases ht : t data with e | out
    · left
      exact ⟨e, by simp [standardPD, FileProcessor.get_input_data, hl, ht]⟩
    · rcases ho : fp.outfile with _ | p
      · rcases hd : fs.outdir with _ | entries
        · left
          refine ⟨fileMissingErr (fp.outfolder ++ "/" ++ g fp.filename), ?_⟩
          simp [standardPD, FileProcessor.get_input_data,
            FileProcessor.write_data_to_file, hl, ht, ho, hd]
        · right
          refine ⟨data, out, rfl, ht, Or.inr ⟨rfl, entries, rfl, ?_⟩⟩
          simp [standardPD, FileProcessor.get_input_data,
            FileProcessor.write_data_to_file, hl, ht, ho, hd]
      · right
        refine ⟨data, out, rfl, ht, Or.inl ⟨p, rfl, ?_⟩⟩
        simp [standardPD, FileProcessor.get_input_data,
          FileProcessor.write_data_to_file, hl, ht, ho]

theorem standard_step_indir (g : String → String)
    (t : List String → Except PyError (List String))
    (fp : FileProcessor) (fs : FS) :
    ((standardPD g t fp fs).1).indir = fs.indir := by
  rcases standard_step g t fp fs with ⟨e, he⟩ | ⟨data, out, _, _, hc⟩
  · rw [he]
  · rcases hc with ⟨p, _, hpd⟩ | ⟨_, entries, _, hpd⟩
    · rw [hpd]
    · rw [hpd]

theorem runUnits_standard_indir (g : String → String)
    (t : List String → Except PyError (List String))
    (objects : List FileProcessor) (fs : FS) :
    ((runUnits (standardClass g t) objects fs).1).indir = fs.indir := by
  induction objects generalizing fs with
  | nil => rfl
  | cons fp rest ih =>
      rw [runUnits_cons]
      exact (ih _).trans (standard_step_indir g t fp fs)

theorem runUnits_standard_summary (g : String → String)
    (t : List String → Except PyError (List String))
    (objects : List FileProcessor) :
    ∀ fs hdr tail, fs.summary = some (hdr ++ tail) →
      ∃ tail2, ((runUnits (standardClass g t) objects fs).1).summary =
        some (hdr ++ tail2) := by
  induction objects with
  | nil =>
      intro fs hdr tail h
      exact ⟨tail, h⟩
  | cons fp rest ih =>
      intro fs hdr tail h
      rw [runUnits_cons]
      rcases standard_step g t fp fs with ⟨e, he⟩ | ⟨data, out, _, _, hc⟩
      · show ∃ tail2, ((runUnits _ rest ((standardClass g t).process_data fp fs).1).1).summary = _
        have : ((standardClass g t).process_data fp fs).1 = fs := by
          show (standardPD g t fp fs).1 = fs
          rw [he]
        rw [this]
        exact ih fs hdr tail h
      · rcases hc with ⟨p, _, hpd⟩ | ⟨_, entries, _, hpd⟩
        · show ∃ tail2, ((runUnits _ rest ((standardClass g t).process_data fp fs).1).1).summary = _
          have : ((standardClass g t).process_data fp fs).1 =
              { fs with summary := some (fs.summary.getD [] ++ out) } := by
            show (standardPD g t fp fs).1 = _
            rw [hpd]
          rw [this]
          refine ih _ hdr (tail ++ out) ?_
          simp [h, List.append_assoc]
        · show ∃ tail2, ((runUnits _ rest ((standardClass g t).process_data fp fs).1).1).summary = _
          have : ((standardClass g t).process_data fp fs).1 =
              { fs with outdir := some (setEntry entries (g fp.filename) out) } := by
            show (standardPD g t fp fs).1 = _
            rw [hpd]
          rw [this]
          exact ih _ hdr tail h

/-- C7: with a summary file configured, driver construction truncates it
to the two-line header regardless of the overwrite flag and of any prior
contents, every write_data_to_file call of a unit with the summary file
set appends to it, and after a whole run with a standard unit class the
summary file consists of the header written once at construction
followed by the appended data. -/
theorem summary_header_truncates_once (cfg : Config) (fs : FS) (p : String)
    (h : cfg.outfile = some p) :
    (initFS cfg fs).summary = some ["Summary of results:\n", "\n"] ∧
    (∀ gof fp dataset fs2, (FileProcessor.outfile fp).isSome = true →
      FileProcessor.write_data_to_file gof fp dataset fs2 =
        Except.ok { fs2 with summary := some (fs2.summary.getD [] ++ dataset) }) ∧
    (∀ g t, cfg.ProcessObject = standardClass g t →
      ∃ tail, (FolderProcessor.run cfg fs).fs.summary =
        some (["Summary of results:\n", "\n"] ++ tail)) := by
  refine ⟨by simp [initFS, h, summaryHeader], ?_, ?_⟩
  · intro gof fp dataset fs2 hsome
    rcases Option.isSome_iff_exists.mp hsome with ⟨q, hq⟩
    simp [FileProcessor.write_data_to_file, hq]
  · intro g t hcls
    have hinit : (initFS cfg fs).summary = some (summaryHeader ++ []) := by
      simp [initFS, h]
    have hrun : (FolderProcessor.run cfg fs).fs =
        (runUnits cfg.ProcessObject
          (generate_objects cfg (initFS cfg fs)
            (List.insertionSort strLe (dirNames (initFS cfg fs).indir))).1
          (initFS cfg fs)).1 := rfl
    rw [hrun, hcls]
    exact runUnits_standard_summary g t _ (initFS cfg fs) summaryHeader [] hinit

def c7Cfg : Config :=
  { infolder := "input", outfolder := "output", ProcessObject := standardClass id Except.ok,
    verbose := true, outfile := some "summary.txt", overwrite := true, additional_args := [] }

def c7FS : FS :=
  { indir := [("a.txt", ["x\n"])], outdir := none, summary := some ["old junk\n"] }

def c7FP : FileProcessor :=
  { inpath := "input/a.txt", outfolder := "output", filename := "a.txt",
    outfile := some "summary.txt", additional_args := [], statusverbose := none }

theorem summary_header_truncates_once_witness :
    (initFS c7Cfg c7FS).summary = some ["Summary of results:\n", "\n"] ∧
    FileProcessor.write_data_to_file (fun fp => fp.filename) c7FP ["d1\n"] c7FS =
      Except.ok { c7FS with summary := some (c7FS.summary.getD [] ++ ["d1\n"]) } ∧
    ∃ tail, (FolderProcessor.run c7Cfg c7FS).fs.summary =
      some (["Summary of results:\n", "\n"] ++ tail) := by
  have hmain := summary_header_truncates_once c7Cfg c7FS "summary.txt" rfl
  exact ⟨hmain.1, hmain.2.1 (fun fp => fp.filename) c7FP ["d1\n"] c7FS rfl,
    hmain.2.2 id Except.ok rfl⟩

/-!
The CSV example module: grouping a file into columns and averaging them.
Floats are modelled by rationals; the modelled fragment of the float
constructor covers plain decimal notation with an optional sign and an
optional fractional part, which is the notation the averaging code meets.
-/

/-- Python split on a comma separator: split at every comma, keeping
empty fields, so that an empty string yields one empty field. -/
def splitCommaAux : List Char → List Char → List String
  | [], acc => [String.mk acc.reverse]
  | c :: cs, acc =>
      if c = ',' then String.mk acc.reverse :: splitCommaAux cs []
      else splitCommaAux cs (c :: acc)

/-- Python split of a string on commas. -/
def pySplitComma (s : String) : List String :=
  splitCommaAux s.data []

/-- The inner loop of group_csv_data for one line: walk the existing
columns and the cells of the line together, appending each cell to its
column, and open a fresh column for every cell beyond the current column
count, exactly as the index loop with its IndexError handler does. -/
def insertRow : List (List String) → List String → List (List String)
  | cols, [] => cols
  | [], c :: cs => [c] :: insertRow [] cs
  | col :: cols, c :: cs => (col ++ [c]) :: insertRow cols cs

/-- Method group_csv_data: split every line on commas and distribute the
cells into columns. -/
def group_csv_data (dataset : List String) : List (List String) :=
  dataset.foldl (fun acc line => insertRow acc (pySplitComma line)) []

/-- The numeric value of a digit string. -/
def digitsVal (cs : List Char) : Nat :=
  cs.foldl (fun a c => 10 * a + (c.toNat - 48)) 0

/-- Splitting a character list at every dot. -/
def splitDotAux : List Char → List Char → List (List Char)
  | [], acc => [acc.reverse]
  | c :: cs, acc =>
      if c = '.' then acc.reverse :: splitDotAux cs []
      else splitDotAux cs (c :: acc)

/-- The float constructor of Python on the decimal fragment: an optional
sign, then either a nonempty digit string or two digit strings around a
single dot, at least one of them nonempty; every other input raises a
ValueError, modelled as none. -/
def pyFloat (s : String) : Option ℚ :=
  let p : Bool × List Char :=
    match s.data with
    | '-' :: rest => (true, rest)
    | '+' :: rest => (false, rest)
    | other => (false, other)
  let v : Option ℚ :=
    match splitDotAux p.2 [] with
    | [ip] =>
        if ip.all Char.isDigit && !ip.isEmpty then some ((digitsVal ip : ℚ)) else none
    | [ip, fp] =>
        if ip.all Char.isDigit && fp.all Char.isDigit && !(ip.isEmpty && fp.isEmpty) then
          some ((digitsVal ip : ℚ) + (digitsVal fp : ℚ) / ((10 : ℚ) ^ fp.length))
        else none
    | _ => none
  v.map (fun x => if p.1 then -x else x)

/-- The accumulation loop of calculate_csv_averages over one column: the
running total and the count of the cells whose stripped text parses as a
float, every other cell being passed over by the ValueError handler. -/
def colStats (col : List String) : ℚ × Nat :=
  col.foldl (fun acc value =>
    match pyFloat (pyStrip value) with
    | some x => (acc.1 + x, acc.2 + 1)
    | none => acc) (0, 0)

/-- The average of one column as the source computes it: the total over
the count when the count is nonzero, and none (printed as NaN) when
no cell of the column parses. -/
def colAvg (col : List String) : Option ℚ :=
  if (colStats col).2 = 0 then none
  else some ((colStats col).1 / ((colStats col).2 : ℚ))

/-- The decimal digits of the fractional part rem/den, with the fuel
bounding the printed precision. -/
def fracDigits : Nat → Nat → Nat → List Char
  | 0, _, _ => []
  | _ + 1, 0, _ => []
  | f + 1, rem, den =>
      Char.ofNat (48 + rem * 10 / den) :: fracDigits f (rem * 10 % den) den

/-- Rendering of a rational in the style of the str function on a float:
a sign, the integer part, a dot, and the fractional digits, with at
least the digit 0 after the dot.  Exact for every value with a short
finite decimal expansion, which covers the averages of the scenario. -/
def pyFloatStr (q : ℚ) : String :=
  (if q < 0 then "-" else "") ++ toString (q.num.natAbs / q.den) ++ "." ++
    (if q.num.natAbs % q.den = 0 then "0"
     else String.mk (fracDigits 17 (q.num.natAbs % q.den) q.den))

/-- The slice result[:-1] of the source: the string without its last
character. -/
def pyDropLastChar (s : String) : String :=
  String.mk s.data.dropLast

/-- Method calculate_csv_averages: start from the filename prefix, append
for every column either the rendered average with a comma or the NaN
marker with a comma, then strip the trailing comma and end the line. -/
def calculate_csv_averages (filename : String) (dataset : List (List String)) : String :=
  pyDropLastChar
    (dataset.foldl (fun acc col =>
      acc ++ (if (colStats col).2 ≠ 0 then
        pyFloatStr ((colStats col).1 / ((colStats col).2 : ℚ)) ++ ","
      else "NaN,"))
      ("Averages for " ++ filename ++ ",")) ++ "\n"

theorem strExt {a b : String} (h : a.data = b.data) : a = b := by
  cases a
  cases b
  cases h
  rfl

theorem colStats_filterMap (col : List String) :
    colStats col = ((col.filterMap (fun v => pyFloat (pyStrip v))).sum,
      (col.filterMap (fun v => pyFloat (pyStrip v))).length) := by
  have key : ∀ (l : List String) (a : ℚ) (c : Nat),
      l.foldl (fun acc value =>
        match pyFloat (pyStrip value) with
        | some x => (acc.1 + x, acc.2 + 1)
        | none => acc) (a, c) =
      (a + (l.filterMap (fun v => pyFloat (pyStrip v))).sum,
        c + (l.filterMap (fun v => pyFloat (pyStrip v))).length) := by
    intro l
    induction l with
    | nil => intro a c; simp
    | cons v rest ih =>
        intro a c
        rcases hv : pyFloat (pyStrip v) with _ | x
        · simp only [List.foldl_cons, hv, List.filterMap_cons, ih]
        · simp only [List.foldl_cons, hv, List.filterMap_cons, ih]
          simp [add_assoc, add_comm, add_left_comm]
  rw [colStats, key col 0 0]
  simp

theorem pyDropLastChar_data (s : String) : (pyDropLastChar s).data = s.data.dropLast := rfl

theorem pyDropLastChar_append (s t : String) (h : t.data ≠ []) :
    pyDropLastChar (s ++ t) = s ++ pyDropLastChar t := by
  apply strExt
  rw [pyDropLastChar_data, String.data_append, String.data_append, pyDropLastChar_data]
  exact List.dropLast_append_of_ne_nil _ h

theorem pyFloatStr_two : pyFloatStr 2 = "2.0" := by
  have hlt : ¬ (2 : ℚ) < 0 := by norm_num
  have hnum : (2 : ℚ).num = 2 := rfl
  have hden : (2 : ℚ).den = 1 := rfl
  rw [pyFloatStr, if_neg hlt, hnum, hden]
  decide

theorem colStats_scenario_A : colStats ["1", "3"] = (4, 2) := by
  rw [colStats_filterMap]
  have h1 : pyFloat (pyStrip "1") = some 1 := by decide
  have h3 : pyFloat (pyStrip "3") = some 3 := by decide
  simp [h1, h3]
  norm_num

theorem colStats_scenario_B : colStats ["2\n", "x\n"] = (2, 1) := by
  rw [colStats_filterMap]
  have h2 : pyFloat (pyStrip "2\n") = some 2 := by decide
  have hx : pyFloat (pyStrip "x\n") = none := by decide
  simp [h2, hx]

/-- C9: the column averages sum and count exactly the cells whose
stripped text parses as a number, a column with no numeric cell yields
the NaN marker, and on the scenario input the two columns built by the
naive split on commas both average to 2, printed as one comma-separated
line prefixed with the filename. -/
theorem csv_averages_numeric_cells_only (f : String) :
    (∀ col, colAvg col =
      (if (col.filterMap (fun v => pyFloat (pyStrip v))).length = 0 then none
       else some ((col.filterMap (fun v => pyFloat (pyStrip v))).sum /
         ((col.filterMap (fun v => pyFloat (pyStrip v))).length : ℚ)))) ∧
    group_csv_data ["1,2\n", "3,x\n"] = [["1", "3"], ["2\n", "x\n"]] ∧
    colAvg ["1", "3"] = some 2 ∧
    colAvg ["2\n", "x\n"] = some 2 ∧
    calculate_csv_averages f (group_csv_data ["1,2\n", "3,x\n"]) =
      "Averages for " ++ f ++ ",2.0,2.0\n" := by
  have hg : group_csv_data ["1,2\n", "3,x\n"] = [["1", "3"], ["2\n", "x\n"]] := by decide
  have havgA : colAvg ["1", "3"] = some 2 := by
    rw [colAvg, colStats_scenario_A]
    norm_num
  have havgB : colAvg ["2\n", "x\n"] = some 2 := by
    rw [colAvg, colStats_scenario_B]
    norm_num
  refine ⟨?_, hg, havgA, havgB, ?_⟩
  · intro col
    rw [colAvg, colStats_filterMap]
  · rw [hg, calculate_csv_averages]
    simp only [List.foldl_cons, List.foldl_nil]
    have heA : (if (colStats ["1", "3"]).2 ≠ 0 then
        pyFloatStr ((colStats ["1", "3"]).1 / ((colStats ["1", "3"]).2 : ℚ)) ++ ","
      else "NaN,") = "2.0," := by
      rw [colStats_scenario_A]
      have h42 : ((4 : ℚ), (2 : Nat)).1 / (((4 : ℚ), (2 : Nat)).2 : ℚ) = 2 := by norm_num
      rw [if_pos (by norm_num : ((4 : ℚ), (2 : Nat)).2 ≠ 0), h42, pyFloatStr_two]
      decide
    have heB : (if (colStats ["2\n", "x\n"]).2 ≠ 0 then
        pyFloatStr ((colStats ["2\n", "x\n"]).1 / ((colStats ["2\n", "x\n"]).2 : ℚ)) ++ ","
      else "NaN,") = "2.0," := by
      rw [colStats_scenario_B]
      have h21 : ((2 : ℚ), (1 : Nat)).1 / (((2 : ℚ), (1 : Nat)).2 : ℚ) = 2 := by norm_num
      rw [if_pos (by norm_num : ((2 : ℚ), (1 : Nat)).2 ≠ 0), h21, pyFloatStr_two]
      decide
    rw [heA, heB]
    have hlast : pyDropLastChar ((("Averages for " ++ f ++ ",") ++ "2.0,") ++ "2.0,") =
        (("Averages for " ++ f ++ ",") ++ "2.0,") ++ "2.0" := by
      rw [pyDropLastChar_append _ _ (by decide)]
      have : pyDropLastChar "2.0," = "2.0" := by decide
      rw [this]
    rw [hlast]
    apply strExt
    simp only [String.data_append, List.append_assoc]
    congr 2

/-!
A missing output folder: the driver never creates it, and every write
fails inside the per-unit boundary.
-/

theorem lookup_isSome_of_mem_names {n : String} {l : List (String × List String)}
    (h : n ∈ dirNames l) : (lookupFile n l).isSome = true := by
  induction l with
  | nil => simp [dirNames] at h
  | cons e rest ih =>
      cases e with
      | mk k v =>
          by_cases he : k = n
          · simp [lookupFile, he]
          · have hsplit : n = k ∨ n ∈ dirNames rest := by
              rw [dirNames, List.map_cons] at h
              exact List.mem_cons.mp h
            have h2 : n ∈ dirNames rest := by
              rcases hsplit with h3 | h3
              · exact absurd h3.symm he
              · exact h3
            simp [lookupFile, he, ih h2]

theorem c10_step (g : String → String) (f : List String → List String)
    (fp : FileProcessor) (fs : FS) (hout : fp.outfile = none) (hod : fs.outdir = none)
    (hlk : (lookupFile fp.filename fs.indir).isSome = true) :
    standardPD g (fun d => Except.ok (f d)) fp fs =
      (fs, Except.error (fileMissingErr (fp.outfolder ++ "/" ++ g fp.filename))) := by
  rcases Option.isSome_iff_exists.mp hlk with ⟨data, hd⟩
  simp [standardPD, FileProcessor.get_input_data, hd,
    FileProcessor.write_data_to_file, hout, hod]

theorem c10_run (g : String → String) (f : List String → List String)
    (objects : List FileProcessor) (fs : FS) (hod : fs.outdir = none)
    (hobj : ∀ fp ∈ objects, fp.outfile = none ∧
      (lookupFile fp.filename fs.indir).isSome = true) :
    runUnits (standardClass g (fun d => Except.ok (f d))) objects fs =
      (fs, objects.map (fun fp => (fp.filename,
        failedComment (fileMissingErr (fp.outfolder ++ "/" ++ g fp.filename))))) := by
  induction objects with
  | nil => rfl
  | cons fp rest ih =>
      obtain ⟨ho, hl⟩ := hobj fp (List.mem_cons_self fp rest)
      have hstep : (standardClass g (fun d => Except.ok (f d))).process_data fp fs =
          (fs, Except.error (fileMissingErr (fp.outfolder ++ "/" ++ g fp.filename))) :=
        c10_step g f fp fs ho hod hl
      rw [runUnits_cons, hstep]
      have hrest := ih (fun fp2 h2 => hobj fp2 (List.mem_cons_of_mem fp h2))
      rw [hrest]
      simp [commentOf]

/-- C10: with no summary file and a missing output folder, driver
construction still succeeds with an empty preserve list, every input
file yields a unit and no skip notice is printed, every unit fails at
its write with the I/O error naming the missing per-file output path,
that failure is caught at the per-unit boundary so the whole batch
completes, and the filesystem, the output folder included, is left
untouched. -/
theorem missing_output_folder_isolated (cfg : Config) (fs : FS)
    (g : String → String) (f : List String → List String)
    (houtfile : cfg.outfile = none)
    (hcls : cfg.ProcessObject = standardClass g (fun d => Except.ok (f d)))
    (houtdir : fs.outdir = none) :
    (FolderProcessor.run cfg fs).notices = [] ∧
    (FolderProcessor.run cfg fs).objectlist =
      (FolderProcessor.run cfg fs).fileslist.map (mkObject cfg) ∧
    (FolderProcessor.run cfg fs).fs = fs ∧
    (FolderProcessor.run cfg fs).results =
      (FolderProcessor.run cfg fs).fileslist.map (fun n => (n,
        failedComment (fileMissingErr (cfg.outfolder ++ "/" ++ g n)))) := by
  have hinit : initFS cfg fs = fs := by simp [initFS, houtfile]
  have hpl : preservelist cfg fs = [] := (preservelist_cases cfg fs).2.2.1 houtdir
  have hgen : ∀ fileslist, generate_objects cfg fs fileslist =
      (fileslist.map (mkObject cfg), []) := by
    intro fileslist
    rw [generate_objects, hpl, generateLoop_eq]
    simp
  have hmem : ∀ n fileslist2, fileslist2 = List.insertionSort strLe (dirNames fs.indir) →
      n ∈ fileslist2 → (lookupFile n fs.indir).isSome = true := by
    intro n fileslist2 hsort hn
    subst hsort
    exact lookup_isSome_of_mem_names
      ((List.perm_insertionSort strLe (dirNames fs.indir)).mem_iff.mp hn)
  have hrunfseq : FolderProcessor.run cfg fs =
      { fs := (runUnits cfg.ProcessObject
          (generate_objects cfg (initFS cfg fs)
            (List.insertionSort strLe (dirNames (initFS cfg fs).indir))).1 (initFS cfg fs)).1
        fileslist := List.insertionSort strLe (dirNames (initFS cfg fs).indir)
        notices := (generate_objects cfg (initFS cfg fs)
          (List.insertionSort strLe (dirNames (initFS cfg fs).indir))).2
        objectlist := (generate_objects cfg (initFS cfg fs)
          (List.insertionSort strLe (dirNames (initFS cfg fs).indir))).1
        results := (runUnits cfg.ProcessObject
          (generate_objects cfg (initFS cfg fs)
            (List.insertionSort strLe (dirNames (initFS cfg fs).indir))).1 (initFS cfg fs)).2
        printed := if cfg.verbose then
          ((runUnits cfg.ProcessObject
            (generate_objects cfg (initFS cfg fs)
              (List.insertionSort strLe (dirNames (initFS cfg fs).indir))).1
            (initFS cfg fs)).2.map processLine) ++ [" "] else [] } := rfl
  rw [hrunfseq, hinit, hgen, hcls]
  have hexec := c10_run g f
    ((List.insertionSort strLe (dirNames fs.indir)).map (mkObject cfg)) fs houtdir
    (by
      intro fp hfp
      rcases List.mem_map.mp hfp with ⟨n, hn, rfl⟩
      exact ⟨houtfile, hmem n _ rfl hn⟩)
  rw [hexec]
  refine ⟨rfl, rfl, rfl, ?_⟩
  simp [mkObject]

def c10Cfg : Config :=
  { infolder := "input", outfolder := "output",
    ProcessObject := standardClass id (fun d => Except.ok d),
    verbose := true, outfile := none, overwrite := false, additional_args := [] }

def c10FS : FS :=
  { indir := [("a.txt", ["x\n"])], outdir := none, summary := none }

theorem missing_output_folder_isolated_witness :
    (FolderProcessor.run c10Cfg c10FS).notices = [] ∧
    (FolderProcessor.run c10Cfg c10FS).objectlist =
      (FolderProcessor.run c10Cfg c10FS).fileslist.map (mkObject c10Cfg) ∧
    (FolderProcessor.run c10Cfg c10FS).fs = c10FS ∧
    (FolderProcessor.run c10Cfg c10FS).results =
      (FolderProcessor.run c10Cfg c10FS).fileslist.map (fun n => (n,
        failedComment (fileMissingErr (c10Cfg.outfolder ++ "/" ++ id n)))) :=
  missing_output_folder_isolated c10Cfg c10FS id (fun d => d) rfl rfl rfl

/-!
Order of execution: sortedness, sequentiality and independence of the
listing order.
-/

/-- The state transformer of one unit inside process_folder. -/
def stepFS (cls : UnitClass) (s : FS) (u : FileProcessor) : FS :=
  (cls.process_data u s).1

/-- A throwaway object used as the default of list indexing. -/
def dummyFP : FileProcessor :=
  { inpath := "", outfolder := "", filename := "", outfile := none,
    additional_args := [], statusverbose := none }

/-- A throwaway filesystem used as the default of list indexing. -/
def dummyFS : FS :=
  { indir := [], outdir := none, summary := none }

theorem runUnits_trace (cls : UnitClass) (objects : List FileProcessor) :
    ∀ (fs : FS) (i : Nat), i < objects.length →
      (runUnits cls objects fs).2.getD i ("", "") =
        ((objects.getD i dummyFP).filename,
          commentOf (cls.process_data (objects.getD i dummyFP)
            ((List.scanl (stepFS cls) fs objects).getD i dummyFS)).2) := by
  induction objects with
  | nil =>
      intro fs i hi
      simp at hi
  | cons fp rest ih =>
      intro fs i hi
      cases i with
      | zero =>
          simp [runUnits_cons, List.scanl_cons]
      | succ j =>
          have hj : j < rest.length := by simpa using hi
          simp only [runUnits_cons, List.scanl_cons, List.singleton_append,
            List.getD_cons_succ]
          exact ih ((cls.process_data fp fs).1) j hj

theorem lookupFile_perm {l1 l2 : List (String × List String)} (hp : l1.Perm l2) :
    (l1.map Prod.fst).Nodup → ∀ n, lookupFile n l1 = lookupFile n l2 := by
  induction hp with
  | nil =>
      intro _ n
      rfl
  | cons x h ih =>
      intro hnd n
      cases x with
      | mk k v =>
          simp only [lookupFile]
          by_cases hk : k = n
          · simp [hk]
          · simp only [if_neg hk]
            exact ih (List.nodup_cons.mp (by simpa using hnd)).2 n
  | swap x y l =>
      intro hnd n
      cases x with
      | mk kx vx =>
          cases y with
          | mk ky vy =>
              have hne : ky ≠ kx := by
                have h2 : ¬ ky ∈ kx :: l.map Prod.fst ∧ (kx :: l.map Prod.fst).Nodup :=
                  List.nodup_cons.mp (by simpa using hnd)
                intro hcontra
                exact h2.1 (hcontra ▸ List.mem_cons_self kx (l.map Prod.fst))
              simp only [lookupFile]
              by_cases hky : ky = n
              · by_cases hkx : kx = n
                · exact absurd (hky.trans hkx.symm) hne
                · simp [hky, hkx]
              · by_cases hkx : kx = n
                · simp [hky, hkx]
                · simp [hky, hkx]
  | trans h1 h2 ih1 ih2 =>
      intro hnd n
      rw [ih1 hnd n, ih2 (((h1.map Prod.fst).nodup_iff).mp hnd) n]

theorem standardPD_indir_swap (g : String → String)
    (t : List String → Except PyError (List String)) (fp : FileProcessor)
    (fs : FS) (l2 : List (String × List String))
    (hlookup : lookupFile fp.filename l2 = lookupFile fp.filename fs.indir) :
    standardPD g t fp { fs with indir := l2 } =
      ({ (standardPD g t fp fs).1 with indir := l2 }, (standardPD g t fp fs).2) := by
  cases fs with
  | mk ind od sm =>
      have hlk2 : lookupFile fp.filename l2 = lookupFile fp.filename ind := hlookup
      rcases hl : lookupFile fp.filename ind with _ | data
      · simp [standardPD, FileProcessor.get_input_data, hlk2, hl]
      · rcases ht : t data with e | out
        · simp [standardPD, FileProcessor.get_input_data, hlk2, hl, ht]
        · rcases ho : fp.outfile with _ | p
          · rcases hd : od with _ | entries
            · simp [standardPD, FileProcessor.get_input_data,
                FileProcessor.write_data_to_file, hlk2, hl, ht, ho, hd]
            · simp [standardPD, FileProcessor.get_input_data,
                FileProcessor.write_data_to_file, hlk2, hl, ht, ho, hd]
          · simp [standardPD, FileProcessor.get_input_data,
              FileProcessor.write_data_to_file, hlk2, hl, ht, ho]

theorem runUnits_standard_indir_swap (g : String → String)
    (t : List String → Except PyError (List String))
    (objects : List FileProcessor) :
    ∀ (fs : FS) (l2 : List (String × List String)),
      (∀ m, lookupFile m l2 = lookupFile m fs.indir) →
      runUnits (standardClass g t) objects { fs with indir := l2 } =
        ({ (runUnits (standardClass g t) objects fs).1 with indir := l2 },
          (runUnits (standardClass g t) objects fs).2) := by
  induction objects with
  | nil =>
      intro fs l2 _
      rfl
  | cons fp rest ih =>
      intro fs l2 hlk
      rw [runUnits_cons, runUnits_cons]
      have hstep : (standardClass g t).process_data fp { fs with indir := l2 } =
          ({ ((standardClass g t).process_data fp fs).1 with indir := l2 },
            ((standardClass g t).process_data fp fs).2) :=
        standardPD_indir_swap g t fp fs l2 (hlk fp.filename)
      rw [hstep]
      have hrest := ih ((standardClass g t).process_data fp fs).1 l2 (by
        intro m
        rw [hlk m]
        have : (((standardClass g t).process_data fp fs).1).indir = fs.indir :=
          standard_step_indir g t fp fs
        rw [this])
      rw [hrest]

theorem initFS_indir (cfg : Config) (fs : FS) : (initFS cfg fs).indir = fs.indir := by
  rcases h : cfg.outfile with _ | p
  · simp [initFS, h]
  · simp [initFS, h]

theorem initFS_outdir (cfg : Config) (fs : FS) : (initFS cfg fs).outdir = fs.outdir := by
  rcases h : cfg.outfile with _ | p
  · simp [initFS, h]
  · simp [initFS, h]

theorem initFS_indir_swap (cfg : Config) (fs : FS) (l2 : List (String × List String)) :
    initFS cfg { fs with indir := l2 } = { initFS cfg fs with indir := l2 } := by
  rcases h : cfg.outfile with _ | p
  · simp [initFS, h]
  · simp [initFS, h]

theorem insertionSort_perm_eq {l1 l2 : List String} (hp : l1.Perm l2) :
    List.insertionSort strLe l1 = List.insertionSort strLe l2 :=
  List.eq_of_perm_of_sorted
    ((List.perm_insertionSort strLe l1).trans (hp.trans (List.perm_insertionSort strLe l2).symm))
    (List.sorted_insertionSort strLe l1) (List.sorted_insertionSort strLe l2)

theorem run_fileslist (cfg : Config) (fs : FS) :
    (FolderProcessor.run cfg fs).fileslist =
      List.insertionSort strLe (dirNames fs.indir) := by
  have h : (FolderProcessor.run cfg fs).fileslist =
      List.insertionSort strLe (dirNames (initFS cfg fs).indir) := rfl
  rw [h, initFS_indir]

theorem run_objectlist (cfg : Config) (fs : FS) :
    (FolderProcessor.run cfg fs).objectlist =
      (generate_objects cfg (initFS cfg fs) (FolderProcessor.run cfg fs).fileslist).1 := rfl

theorem run_notices (cfg : Config) (fs : FS) :
    (FolderProcessor.run cfg fs).notices =
      (generate_objects cfg (initFS cfg fs) (FolderProcessor.run cfg fs).fileslist).2 := rfl

theorem run_results (cfg : Config) (fs : FS) :
    (FolderProcessor.run cfg fs).results =
      (runUnits cfg.ProcessObject (FolderProcessor.run cfg fs).objectlist
        (initFS cfg fs)).2 := rfl

theorem run_fs (cfg : Config) (fs : FS) :
    (FolderProcessor.run cfg fs).fs =
      (runUnits cfg.ProcessObject (FolderProcessor.run cfg fs).objectlist
        (initFS cfg fs)).1 := rfl

theorem run_printed (cfg : Config) (fs : FS) :
    (FolderProcessor.run cfg fs).printed =
      (if cfg.verbose then
        ((FolderProcessor.run cfg fs).results.map processLine) ++ [" "] else []) := rfl

theorem preservelist_outdir_congr (cfg : Config) {fs1 fs2 : FS}
    (h : fs1.outdir = fs2.outdir) : preservelist cfg fs1 = preservelist cfg fs2 := by
  simp [preservelist, h]

/-- C5: the input listing is sorted into lexicographic code-point order,
the objects are built and executed as a subsequence of that sorted list,
each unit of process_folder runs on exactly the state left by the units
before it in list order, and the whole observable run is unchanged under
any permutation of the directory listing. -/
theorem run_sorted_and_deterministic (cfg : Config) (fs : FS) (g : String → String)
    (t : List String → Except PyError (List String))
    (l2 : List (String × List String))
    (hcls : cfg.ProcessObject = standardClass g t)
    (hperm : l2.Perm fs.indir)
    (hnd : (fs.indir.map Prod.fst).Nodup) :
    List.Sorted strLe (FolderProcessor.run cfg fs).fileslist ∧
    (FolderProcessor.run cfg fs).fileslist.Perm (dirNames fs.indir) ∧
    ((FolderProcessor.run cfg fs).objectlist.map FileProcessor.filename).Sublist
      (FolderProcessor.run cfg fs).fileslist ∧
    (∀ i, i < (FolderProcessor.run cfg fs).objectlist.length →
      (FolderProcessor.run cfg fs).results.getD i ("", "") =
        (((FolderProcessor.run cfg fs).objectlist.getD i dummyFP).filename,
          commentOf (cfg.ProcessObject.process_data
            ((FolderProcessor.run cfg fs).objectlist.getD i dummyFP)
            ((List.scanl (stepFS cfg.ProcessObject) (initFS cfg fs)
              (FolderProcessor.run cfg fs).objectlist).getD i dummyFS)).2)) ∧
    ((FolderProcessor.run cfg { fs with indir := l2 }).fileslist =
        (FolderProcessor.run cfg fs).fileslist ∧
      (FolderProcessor.run cfg { fs with indir := l2 }).notices =
        (FolderProcessor.run cfg fs).notices ∧
      (FolderProcessor.run cfg { fs with indir := l2 }).objectlist =
        (FolderProcessor.run cfg fs).objectlist ∧
      (FolderProcessor.run cfg { fs with indir := l2 }).results =
        (FolderProcessor.run cfg fs).results ∧
      (FolderProcessor.run cfg { fs with indir := l2 }).printed =
        (FolderProcessor.run cfg fs).printed ∧
      (FolderProcessor.run cfg { fs with indir := l2 }).fs.outdir =
        (FolderProcessor.run cfg fs).fs.outdir ∧
      (FolderProcessor.run cfg { fs with indir := l2 }).fs.summary =
        (FolderProcessor.run cfg fs).fs.summary) := by
  have hfl := run_fileslist cfg fs
  have hfl2 : (FolderProcessor.run cfg { fs with indir := l2 }).fileslist =
      (FolderProcessor.run cfg fs).fileslist := by
    rw [run_fileslist, run_fileslist]
    exact insertionSort_perm_eq (hperm.map Prod.fst)
  have hpl : preservelist cfg (initFS cfg { fs with indir := l2 }) =
      preservelist cfg (initFS cfg fs) :=
    preservelist_outdir_congr cfg (by rw [initFS_outdir, initFS_outdir])
  have hobj2 : (FolderProcessor.run cfg { fs with indir := l2 }).objectlist =
      (FolderProcessor.run cfg fs).objectlist := by
    rw [run_objectlist, run_objectlist, hfl2, generate_objects, generate_objects, hpl]
  have hnot2 : (FolderProcessor.run cfg { fs with indir := l2 }).notices =
      (FolderProcessor.run cfg fs).notices := by
    rw [run_notices, run_notices, hfl2, generate_objects, generate_objects, hpl]
  have hlkinv : ∀ m, lookupFile m l2 = lookupFile m (initFS cfg fs).indir := by
    intro m
    rw [initFS_indir]
    exact lookupFile_perm hperm (((hperm.map Prod.fst).nodup_iff).mpr hnd) m
  have hswap := runUnits_standard_indir_swap g t
    (FolderProcessor.run cfg fs).objectlist (initFS cfg fs) l2 hlkinv
  have hexec2 : runUnits cfg.ProcessObject
      (FolderProcessor.run cfg { fs with indir := l2 }).objectlist
      (initFS cfg { fs with indir := l2 }) =
      ({ (runUnits cfg.ProcessObject (FolderProcessor.run cfg fs).objectlist
          (initFS cfg fs)).1 with indir := l2 },
        (runUnits cfg.ProcessObject (FolderProcessor.run cfg fs).objectlist
          (initFS cfg fs)).2) := by
    rw [hobj2, initFS_indir_swap, hcls]
    exact hswap
  have hres2 : (FolderProcessor.run cfg { fs with indir := l2 }).results =
      (FolderProcessor.run cfg fs).results := by
    rw [run_results, run_results, hexec2]
  refine ⟨?_, ?_, ?_, ?_, hfl2, hnot2, hobj2, hres2, ?_, ?_, ?_⟩
  · rw [hfl]
    exact List.sorted_insertionSort strLe _
  · rw [hfl]
    exact List.perm_insertionSort strLe _
  · rw [run_objectlist, generate_objects, generateLoop_eq]
    simp only [List.map_map]
    have hid : (FileProcessor.filename ∘ mkObject cfg) = fun n => n :=
      funext (fun n => rfl)
    rw [hid, List.map_id']
    exact List.filter_sublist _
  · intro i hi
    exact runUnits_trace cfg.ProcessObject
      (FolderProcessor.run cfg fs).objectlist (initFS cfg fs) i hi
  · rw [run_printed, run_printed, hres2]
  · rw [run_fs, run_fs, hexec2]
  · rw [run_fs, run_fs, hexec2]

def c5Cfg : Config :=
  { infolder := "input", outfolder := "output",
    ProcessObject := standardClass id Except.ok,
    verbose := true, outfile := none, overwrite := false, additional_args := [] }

def c5FS : FS :=
  { indir := [("b.txt", ["z\n"]), ("a.txt", ["x\n"])], outdir := some [], summary := none }

def c5L2 : List (String × List String) :=
  [("a.txt", ["x\n"]), ("b.txt", ["z\n"])]

theorem run_sorted_and_deterministic_witness :
    List.Sorted strLe (FolderProcessor.run c5Cfg c5FS).fileslist ∧
    (FolderProcessor.run c5Cfg c5FS).fileslist.Perm (dirNames c5FS.indir) ∧
    ((FolderProcessor.run c5Cfg c5FS).objectlist.map FileProcessor.filename).Sublist
      (FolderProcessor.run c5Cfg c5FS).fileslist ∧
    (∀ i, i < (FolderProcessor.run c5Cfg c5FS).objectlist.length →
      (FolderProcessor.run c5Cfg c5FS).results.getD i ("", "") =
        (((FolderProcessor.run c5Cfg c5FS).objectlist.getD i dummyFP).filename,
          commentOf (c5Cfg.ProcessObject.process_data
            ((FolderProcessor.run c5Cfg c5FS).objectlist.getD i dummyFP)
            ((List.scanl (stepFS c5Cfg.ProcessObject) (initFS c5Cfg c5FS)
              (FolderProcessor.run c5Cfg c5FS).objectlist).getD i dummyFS)).2)) ∧
    ((FolderProcessor.run c5Cfg { c5FS with indir := c5L2 }).fileslist =
        (FolderProcessor.run c5Cfg c5FS).fileslist ∧
      (FolderProcessor.run c5Cfg { c5FS with indir := c5L2 }).notices =
        (FolderProcessor.run c5Cfg c5FS).notices ∧
      (FolderProcessor.run c5Cfg { c5FS with indir := c5L2 }).objectlist =
        (FolderProcessor.run c5Cfg c5FS).objectlist ∧
      (FolderProcessor.run c5Cfg { c5FS with indir := c5L2 }).results =
        (FolderProcessor.run c5Cfg c5FS).results ∧
      (FolderProcessor.run c5Cfg { c5FS with indir := c5L2 }).printed =
        (FolderProcessor.run c5Cfg c5FS).printed ∧
      (FolderProcessor.run c5Cfg { c5FS with indir := c5L2 }).fs.outdir =
        (FolderProcessor.run c5Cfg c5FS).fs.outdir ∧
      (FolderProcessor.run c5Cfg { c5FS with indir := c5L2 }).fs.summary =
        (FolderProcessor.run c5Cfg c5FS).fs.summary) :=
  run_sorted_and_deterministic c5Cfg c5FS id Except.ok c5L2 rfl (by decide) (by decide)

/-!
Running the driver twice: supporting lemmas.
-/

theorem initFS_none (cfg : Config) (fs : FS) (h : cfg.outfile = none) :
    initFS cfg fs = fs := by
  simp [initFS, h]

theorem dirNames_setEntry (l : List (String × List String)) (k : String)
    (v : List String) (m : String) :
    m ∈ dirNames (setEntry l k v) ↔ m ∈ dirNames l ∨ m = k := by
  induction l with
  | nil => simp [setEntry, dirNames]
  | cons e rest ih =>
      cases e with
      | mk k2 v2 =>
          by_cases h : k2 = k
          · subst h
            simp [setEntry, dirNames]
            tauto
          · simp [setEntry, dirNames, h] at ih ⊢
            tauto

theorem standardPD_read_error (g : String → String)
    (t : List String → Except PyError (List String)) (fp : FileProcessor) (fs : FS)
    (hl : lookupFile fp.filename fs.indir = none) :
    standardPD g t fp fs = (fs, Except.error (fileMissingErr fp.inpath)) := by
  simp [standardPD, FileProcessor.get_input_data, hl]

theorem standardPD_transform_error (g : String → String)
    (t : List String → Except PyError (List String)) (fp : FileProcessor) (fs : FS)
    (data : List String) (e : PyError)
    (hl : lookupFile fp.filename fs.indir = some data) (ht : t data = Except.error e) :
    standardPD g t fp fs = (fs, Except.error e) := by
  simp [standardPD, FileProcessor.get_input_data, hl, ht]

theorem standardPD_write_error (g : String → String)
    (t : List String → Except PyError (List String)) (fp : FileProcessor) (fs : FS)
    (data out : List String) (hout : fp.outfile = none) (hod : fs.outdir = none)
    (hl : lookupFile fp.filename fs.indir = some data) (ht : t data = Except.ok out) :
    standardPD g t fp fs =
      (fs, Except.error (fileMissingErr (fp.outfolder ++ "/" ++ g fp.filename))) := by
  simp [standardPD, FileProcessor.get_input_data, hl, ht,
    FileProcessor.write_data_to_file, hout, hod]

theorem standardPD_write (g : String → String)
    (t : List String → Except PyError (List String)) (fp : FileProcessor) (fs : FS)
    (E : List (String × List String)) (data out : List String)
    (hout : fp.outfile = none) (hod : fs.outdir = some E)
    (hl : lookupFile fp.filename fs.indir = some data) (ht : t data = Except.ok out) :
    standardPD g t fp fs =
      ({ fs with outdir := some (setEntry E (g fp.filename) out) }, Except.ok none) := by
  simp [standardPD, FileProcessor.get_input_data, hl, ht,
    FileProcessor.write_data_to_file, hout, hod]

theorem standardPD_error_of_outdir_none (g : String → String)
    (t : List String → Except PyError (List String)) (fp : FileProcessor) (fs : FS)
    (hout : fp.outfile = none) (hod : fs.outdir = none) :
    ∃ e, standardPD g t fp fs = (fs, Except.error e) := by
  rcases hl : lookupFile fp.filename fs.indir with _ | data
  · exact ⟨_, standardPD_read_error g t fp fs hl⟩
  · rcases ht : t data with e | out
    · exact ⟨e, standardPD_transform_error g t fp fs data e hl ht⟩
    · exact ⟨_, standardPD_write_error g t fp fs data out hout hod hl ht⟩

theorem runUnits_standard_noop (g : String → String)
    (t : List String → Except PyError (List String))
    (objects : List FileProcessor) :
    ∀ fs, (∀ fp ∈ objects, ∃ e, standardPD g t fp fs = (fs, Except.error e)) →
      (runUnits (standardClass g t) objects fs).1 = fs := by
  induction objects with
  | nil =>
      intro fs _
      rfl
  | cons fp rest ih =>
      intro fs h
      obtain ⟨e, he⟩ := h fp (List.mem_cons_self fp rest)
      rw [runUnits_cons]
      show (runUnits (standardClass g t) rest
        ((standardClass g t).process_data fp fs).1).1 = fs
      have h1 : ((standardClass g t).process_data fp fs).1 = fs := congrArg Prod.fst he
      rw [h1]
      exact ih fs (fun u hu => h u (List.mem_cons_of_mem fp hu))

theorem runUnits_standard_outdir_keys (g : String → String)
    (t : List String → Except PyError (List String))
    (objects : List FileProcessor) :
    ∀ fs E, fs.outdir = some E → (∀ fp ∈ objects, fp.outfile = none) →
      ∃ E2, (runUnits (standardClass g t) objects fs).1.outdir = some E2 ∧
        (∀ m, m ∈ dirNames E → m ∈ dirNames E2) ∧
        (∀ fp ∈ objects, ∀ data out, lookupFile fp.filename fs.indir = some data →
          t data = Except.ok out → g fp.filename ∈ dirNames E2) := by
  induction objects with
  | nil =>
      intro fs E hod _
      exact ⟨E, hod, fun m hm => hm, by simp⟩
  | cons fp rest ih =>
      intro fs E hod hout
      have hofp : fp.outfile = none := hout fp (List.mem_cons_self fp rest)
      rw [runUnits_cons]
      rcases hlk : lookupFile fp.filename fs.indir with _ | data
      · have hstep := standardPD_read_error g t fp fs hlk
        obtain ⟨E2, h1, h2, h3⟩ := ih fs E hod (fun u hu => hout u (List.mem_cons_of_mem fp hu))
        refine ⟨E2, ?_, h2, ?_⟩
        · show (runUnits (standardClass g t) rest
            ((standardClass g t).process_data fp fs).1).1.outdir = some E2
          rw [show ((standardClass g t).process_data fp fs).1 = fs from congrArg Prod.fst hstep]
          exact h1
        · intro u hu data2 out2 hl2 ht2
          rcases List.mem_cons.mp hu with rfl | hu2
          · rw [hlk] at hl2
            exact Option.noConfusion hl2
          · exact h3 u hu2 data2 out2 hl2 ht2
      · rcases hts : t data with e | out
        · have hstep := standardPD_transform_error g t fp fs data e hlk hts
          obtain ⟨E2, h1, h2, h3⟩ := ih fs E hod (fun u hu => hout u (List.mem_cons_of_mem fp hu))
          refine ⟨E2, ?_, h2, ?_⟩
          · show (runUnits (standardClass g t) rest
              ((standardClass g t).process_data fp fs).1).1.outdir = some E2
            rw [show ((standardClass g t).process_data fp fs).1 = fs from congrArg Prod.fst hstep]
            exact h1
          · intro u hu data2 out2 hl2 ht2
            rcases List.mem_cons.mp hu with rfl | hu2
            · rw [hlk] at hl2
              have hdd : data2 = data := (Option.some.injEq _ _).mp hl2.symm
              rw [hdd, hts] at ht2
              exact Except.noConfusion ht2
            · exact h3 u hu2 data2 out2 hl2 ht2
        · have hstep := standardPD_write g t fp fs E data out hofp hod hlk hts
          obtain ⟨E2, h1, h2, h3⟩ :=
            ih { fs with outdir := some (setEntry E (g fp.filename) out) }
              (setEntry E (g fp.filename) out) rfl
              (fun u hu => hout u (List.mem_cons_of_mem fp hu))
          refine ⟨E2, ?_, ?_, ?_⟩
          · show (runUnits (standardClass g t) rest
              ((standardClass g t).process_data fp fs).1).1.outdir = some E2
            rw [show ((standardClass g t).process_data fp fs).1 =
              { fs with outdir := some (setEntry E (g fp.filename) out) } from
                congrArg Prod.fst hstep]
            exact h1
          · intro m hm
            exact h2 m ((dirNames_setEntry E (g fp.filename) out m).mpr (Or.inl hm))
          · intro u hu data2 out2 hl2 ht2
            rcases List.mem_cons.mp hu with rfl | hu2
            · exact h2 (g u.filename)
                ((dirNames_setEntry E (g u.filename) out (g u.filename)).mpr (Or.inr rfl))
            · exact h3 u hu2 data2 out2 hl2 ht2

theorem noticeStr_injective : Function.Injective noticeStr := by
  intro a b h
  have hd := congrArg String.data h
  rw [noticeStr, noticeStr] at hd
  simp only [String.data_append] at hd
  exact strExt (List.append_cancel_left (List.append_cancel_right hd))

/-- C4: with overwrite off and no summary file, a second driver run with
a standard unit class over the state left by the first run changes
nothing: the output folder after the second run equals the output folder
after the first, the whole filesystem in fact, and on the second run
every skipped file prints exactly one skip notice. -/
theorem run_twice_idempotent (cfg : Config) (fs : FS) (g : String → String)
    (t : List String → Except PyError (List String))
    (houtfile : cfg.outfile = none) (hoverwrite : cfg.overwrite = false)
    (hcls : cfg.ProcessObject = standardClass g t)
    (hnd : (fs.indir.map Prod.fst).Nodup) :
    (FolderProcessor.run cfg (FolderProcessor.run cfg fs).fs).fs.outdir =
      (FolderProcessor.run cfg fs).fs.outdir ∧
    (FolderProcessor.run cfg (FolderProcessor.run cfg fs).fs).fs =
      (FolderProcessor.run cfg fs).fs ∧
    (∀ n, noticeStr n ∈ (FolderProcessor.run cfg (FolderProcessor.run cfg fs).fs).notices →
      (FolderProcessor.run cfg (FolderProcessor.run cfg fs).fs).notices.count
        (noticeStr n) = 1) := by
  have hinit : ∀ s, initFS cfg s = s := fun s => initFS_none cfg s houtfile
  have hindir1 : (FolderProcessor.run cfg fs).fs.indir = fs.indir := by
    rw [run_fs, hcls, runUnits_standard_indir, hinit]
  have hobjout : ∀ s, ∀ fp ∈ (FolderProcessor.run cfg s).objectlist,
      fp.outfile = none := by
    intro s fp hfp
    rw [run_objectlist, generate_objects, generateLoop_eq] at hfp
    rcases List.mem_map.mp hfp with ⟨m, _, rfl⟩
    exact houtfile
  have hfl21 : (FolderProcessor.run cfg (FolderProcessor.run cfg fs).fs).fileslist =
      (FolderProcessor.run cfg fs).fileslist := by
    rw [run_fileslist, run_fileslist, hindir1]
  have hcount : ∀ n, noticeStr n ∈
      (FolderProcessor.run cfg (FolderProcessor.run cfg fs).fs).notices →
      (FolderProcessor.run cfg (FolderProcessor.run cfg fs).fs).notices.count
        (noticeStr n) = 1 := by
    intro n hmem
    have hnot2 : (FolderProcessor.run cfg (FolderProcessor.run cfg fs).fs).notices =
        ((FolderProcessor.run cfg (FolderProcessor.run cfg fs).fs).fileslist.filter
          (fun m => decide (cfg.ProcessObject.generate_output_filename (mkObject cfg m) ∈
            preservelist cfg (initFS cfg (FolderProcessor.run cfg fs).fs)))).map
          noticeStr := by
      rw [run_notices, generate_objects, generateLoop_eq]
    have hnd2 : (FolderProcessor.run cfg (FolderProcessor.run cfg fs).fs).fileslist.Nodup := by
      rw [run_fileslist]
      refine ((List.perm_insertionSort strLe _).nodup_iff).mpr ?_
      rw [hindir1]
      exact hnd
    rw [hnot2] at hmem ⊢
    rcases List.mem_map.mp hmem with ⟨m, hmf, heq⟩
    have hm : m = n := noticeStr_injective heq
    subst hm
    rw [List.count_map_of_injective _ noticeStr noticeStr_injective m]
    exact List.count_eq_one_of_mem (List.Nodup.filter _ hnd2) hmf
  have hfs2 : (FolderProcessor.run cfg (FolderProcessor.run cfg fs).fs).fs =
      (FolderProcessor.run cfg fs).fs := by
    rcases hod : fs.outdir with _ | E0
    · have hr1 : (FolderProcessor.run cfg fs).fs = fs := by
        conv_lhs => rw [run_fs, hcls]
        rw [hinit]
        apply runUnits_standard_noop
        intro fp hfp
        exact standardPD_error_of_outdir_none g t fp fs (hobjout fs fp hfp) hod
      rw [hr1]
      exact hr1
    · have hrun1fs : (FolderProcessor.run cfg fs).fs =
          (runUnits (standardClass g t) (FolderProcessor.run cfg fs).objectlist fs).1 := by
        conv_lhs => rw [run_fs, hcls]
        rw [hinit]
      obtain ⟨E1, hE1, hmono, hsucc⟩ :=
        runUnits_standard_outdir_keys g t (FolderProcessor.run cfg fs).objectlist fs E0
          hod (hobjout fs)
      have hr1od : (FolderProcessor.run cfg fs).fs.outdir = some E1 := by
        rw [hrun1fs]
        exact hE1
      have hpl1 : preservelist cfg (initFS cfg fs) = dirNames E0 := by
        rw [hinit]
        exact (preservelist_cases cfg fs).2.2.2.1 E0 houtfile hoverwrite hod
      have hpl2 : preservelist cfg (initFS cfg (FolderProcessor.run cfg fs).fs) =
          dirNames E1 := by
        rw [hinit]
        exact (preservelist_cases cfg (FolderProcessor.run cfg fs).fs).2.2.2.1 E1
          houtfile hoverwrite hr1od
      have hnoop : (runUnits (standardClass g t)
          (FolderProcessor.run cfg (FolderProcessor.run cfg fs).fs).objectlist
          (FolderProcessor.run cfg fs).fs).1 = (FolderProcessor.run cfg fs).fs := by
        apply runUnits_standard_noop
        intro fp hfp
        rw [run_objectlist, generate_objects, generateLoop_eq] at hfp
        rcases List.mem_map.mp hfp with ⟨m, hmf, rfl⟩
        have hmem2 := List.mem_filter.mp hmf
        have hnotin : cfg.ProcessObject.generate_output_filename (mkObject cfg m) ∉
            preservelist cfg (initFS cfg (FolderProcessor.run cfg fs).fs) := by
          simpa using hmem2.2
        rw [hpl2] at hnotin
        have hgm : g m ∉ dirNames E1 := by
          rw [hcls] at hnotin
          simpa [standardClass, mkObject] using hnotin
        have hmemfl : m ∈ (FolderProcessor.run cfg (FolderProcessor.run cfg fs).fs).fileslist :=
          hmem2.1
        have hmdir : m ∈ dirNames fs.indir := by
          rw [run_fileslist] at hmemfl
          have h2 := (List.perm_insertionSort strLe _).mem_iff.mp hmemfl
          rwa [hindir1] at h2
        rcases Option.isSome_iff_exists.mp (lookup_isSome_of_mem_names hmdir) with ⟨data, hdata⟩
        have hlk1 : lookupFile (mkObject cfg m).filename
            (FolderProcessor.run cfg fs).fs.indir = some data := by
          rw [hindir1]
          exact hdata
        rcases hts : t data with e | out
        · exact ⟨e, standardPD_transform_error g t (mkObject cfg m)
            (FolderProcessor.run cfg fs).fs data e hlk1 hts⟩
        · exfalso
          have hm1 : mkObject cfg m ∈ (FolderProcessor.run cfg fs).objectlist := by
            rw [run_objectlist, generate_objects, generateLoop_eq]
            apply List.mem_map_of_mem
            apply List.mem_filter.mpr
            refine ⟨?_, ?_⟩
            · rw [← hfl21]
              exact hmemfl
            · rw [hpl1, hcls]
              simp only [standardClass, mkObject, decide_eq_true_eq]
              intro hc
              exact hgm (hmono (g m) hc)
          have hres := hsucc (mkObject cfg m) hm1 data out hdata hts
          exact hgm hres
      conv_lhs => rw [run_fs, hcls]
      rw [hinit]
      exact hnoop
  exact ⟨congrArg FS.outdir hfs2, hfs2, hcount⟩

theorem run_twice_idempotent_witness :
    (FolderProcessor.run c5Cfg (FolderProcessor.run c5Cfg c5FS).fs).fs.outdir =
      (FolderProcessor.run c5Cfg c5FS).fs.outdir ∧
    (FolderProcessor.run c5Cfg (FolderProcessor.run c5Cfg c5FS).fs).fs =
      (FolderProcessor.run c5Cfg c5FS).fs ∧
    (∀ n, noticeStr n ∈
        (FolderProcessor.run c5Cfg (FolderProcessor.run c5Cfg c5FS).fs).notices →
      (FolderProcessor.run c5Cfg (FolderProcessor.run c5Cfg c5FS).fs).notices.count
        (noticeStr n) = 1) :=
  run_twice_idempotent c5Cfg c5FS id Except.ok rfl rfl rfl (by decide)
